import Mathlib

/-!
Verification development for the step/plan execution engine of the
sunbeam cluster lifecycle orchestrator (snap-openstack, sunbeam-python).

The repository snapshot contains the plugin interface
(sunbeam/plugins/interface/v1/base.py) and the unit tests of the engine
(tests/unit/sunbeam/core/test_steps.py, tests/unit/sunbeam/commands/test_juju.py),
while the engine modules themselves (sunbeam/jobs/common.py with run_plan,
sunbeam/commands/juju.py with JujuStepHelper, sunbeam/core/steps.py with the
machine-unit reconciliation steps) are absent.  Definitions for the absent
modules are modelled from the specification, constrained where the unit tests
under the sources pin concrete behaviour; definitions for base.py are
translated directly from that file.  Strings are embedded as Lean strings and
their character lists; Python dicts as association lists.
-/

/-- Terminal classification of one step invocation (spec section 3). -/
inductive ResultType where
  | COMPLETED
  | FAILED
  | SKIPPED
deriving DecidableEq, Repr

/-- Outcome of one call to is_skip or run: a result type and an optional
human-readable message (spec section 3). -/
structure Result where
  result_type : ResultType
  message : Option String := none
deriving DecidableEq, Repr

/-- Python test `"/" in channel` on the character list of the string. -/
def hasSlash : List Char → Bool
  | [] => false
  | c :: cs => c = '/' || hasSlash cs

/-- Split a character list on every slash, yielding the components of a
channel string (Python `channel.split("/")`). -/
def splitSlash : List Char → List (List Char)
  | [] => [[]]
  | c :: cs =>
    let r := splitSlash cs
    if c = '/' then [] :: r
    else
      match r with
      | [] => [[c]]
      | h :: t => (c :: h) :: t

/-- Modelled from the spec: `normalise_channel(c)` of the missing
`JujuStepHelper` (sunbeam/commands/juju.py is not among the sources, only its
unit tests are): a channel with no "/" is prefixed with "latest/",
otherwise it is returned unchanged. -/
def normalise_channel (c : String) : String :=
  if hasSlash c.data then c else "latest/" ++ c

/-- The components of a channel string after normalisation. -/
def channelParts (c : String) : List (List Char) :=
  splitSlash (normalise_channel c).data

/-- A channel string is well formed when it normalises to exactly a
track and a risk component. -/
def well_formed_channel (c : String) : Bool :=
  (channelParts c).length == 2

/-- Modelled from the spec: `channel_update_needed(deployed, target)` of the
missing `JujuStepHelper`: normalise both channels and split each into
(track, risk); with differing tracks an update is needed exactly when the
target track is lexically greater, never for a downgrade; with equal tracks
an update is needed exactly when the risks differ.  A channel that does not
split into exactly two components yields false. -/
def channel_update_needed (deployed target : String) : Bool :=
  match channelParts deployed, channelParts target with
  | [dtrack, drisk], [ttrack, trisk] =>
    if dtrack = ttrack then decide (drisk ≠ trisk) else decide (dtrack < ttrack)
  | _, _ => false

/-- Numeric value of a decimal digit character. -/
def digitVal (c : Char) : Nat := c.toNat - 48

/-- Decimal digits to a natural number. -/
def digitsToNat (l : List Char) : Nat :=
  l.foldl (fun acc c => 10 * acc + digitVal c) 0

/-- Modelled from the spec: `_extract_charm_revision(charm_url)` of the
missing `JujuStepHelper`: the trailing digits of the charm URL, read here
directly as a number. -/
def extract_charm_revision (url : String) : Nat :=
  digitsToNat (url.data.reverse.takeWhile Char.isDigit).reverse

/-- Modelled from the spec: `_extract_charm_name(charm_url)` of the missing
`JujuStepHelper`: the last "/"-component of the charm URL with the trailing
"-<digits>" suffix stripped. -/
def extract_charm_name (url : String) : String :=
  let last := (splitSlash url.data).getLastD []
  let digits := last.reverse.takeWhile Char.isDigit
  String.mk (last.take (last.length - digits.length - 1))

/-- One application entry of a Juju model status: the charm URL and the
deployed channel (the "charm" and "charm-channel" keys of the status). -/
structure AppStatus where
  charm : String
  charm_channel : String
deriving DecidableEq, Repr

/-- Modelled from the spec: `revision_update_needed(app, model, status)` of
the missing `JujuStepHelper`.  It reads the deployed charm URL and channel of
`app` from the status, asks the controller (embedded as the oracle `avail`,
taking model, charm name and channel) for the latest available revision on
the deployed channel, and reports true exactly when that revision is strictly
greater than the deployed one.  An application absent from the status yields
false.  The guard returning false for a deployed channel of more than two
components is forced by the unit test
tests/unit/sunbeam/commands/test_juju.py test_revision_update_needed, which
expects no update for application nova whose channel is "2023.2/edge/gnuoy"
although the available revision 31 exceeds the deployed 30. -/
def revision_update_needed (avail : String → String → String → Nat)
    (app model : String) (applications : List (String × AppStatus)) : Bool :=
  match applications.find? (fun p => p.1 == app) with
  | none => false
  | some p =>
    let deployed_revision := extract_charm_revision p.2.charm
    let charm_name := extract_charm_name p.2.charm
    let deployed_channel := normalise_channel p.2.charm_channel
    if 2 < (splitSlash deployed_channel.data).length then false
    else decide (deployed_revision < avail model charm_name deployed_channel)

/-- The model status used by test_revision_update_needed. -/
def revisionTestStatus : List (String × AppStatus) :=
  [("nova", ⟨"ch:amd64/jammy/nova-k8s-30", "2023.2/edge/gnuoy"⟩),
   ("cinder", ⟨"ch:amd64/jammy/cinder-k8s-50", "2023.2/edge"⟩),
   ("another", ⟨"ch:amd64/jammy/another-k8s-70", "edge"⟩)]

/-- The available-revision oracle used by test_revision_update_needed. -/
def revisionTestAvail : String → String → String → Nat :=
  fun _ charm _ =>
    if charm == "nova-k8s" then 31
    else if charm == "cinder-k8s" then 51
    else if charm == "another-k8s" then 70
    else 0

/-- One cluster node as returned by the membership store list-nodes call:
a node name and its machine id. -/
structure ClusterNode where
  name : String
  machineid : String
deriving DecidableEq, Repr

/-- The machine placement of a unit, exposing its id. -/
structure Machine where
  id : String
deriving DecidableEq, Repr

/-- One running unit of an application: its unit name and the machine it is
placed on. -/
structure AppUnit where
  name : String
  machine : Machine
deriving DecidableEq, Repr

/-- The application value object exposed by the deployment controller:
its sequence of units. -/
structure Application where
  units : List AppUnit
deriving DecidableEq, Repr

/-- Modelled from the spec: `AddMachineUnitsStep.is_skip()` of the missing
sunbeam/core/steps.py (only its unit tests are among the sources).  The named
machine is resolved to a machine id via the membership store nodes; an absent
machine yields FAILED with the "does not exist in cluster database" message.
`application` is the controller answer for the target application, `none`
standing for ApplicationNotFoundException.  The FAILED result with message
"Application <name> has not been deployed" on a missing application is forced
by the unit test tests/unit/sunbeam/core/test_steps.py
test_is_skip_application_missing, which asserts exactly that result.  When
the resolved machine id already hosts a unit the step reports SKIPPED,
otherwise COMPLETED. -/
def addMachineUnits_is_skip (nodes : List ClusterNode) (application : Option Application)
    (machine_name app_name : String) : Result :=
  match nodes.find? (fun n => n.name == machine_name) with
  | none =>
    ⟨.FAILED, some ("Machine " ++ machine_name ++ " does not exist in cluster database")⟩
  | some node =>
    match application with
    | none => ⟨.FAILED, some ("Application " ++ app_name ++ " has not been deployed")⟩
    | some app =>
      if app.units.any (fun u => u.machine.id == node.machineid) then
        ⟨.SKIPPED, none⟩
      else
        ⟨.COMPLETED, none⟩

/-- Modelled from the spec: `RemoveMachineUnitsStep.is_skip()` of the missing
sunbeam/core/steps.py.  Every precondition miss is a no-op: a machine absent
from the membership store, a missing application and a machine hosting no
unit of the application all yield SKIPPED.  Only when units of the
application match the resolved machine id does the step report COMPLETED,
returning as second component the resolved unit names it caches for run()
(the units_to_remove attribute exercised by the unit tests). -/
def removeMachineUnits_is_skip (nodes : List ClusterNode) (application : Option Application)
    (machine_name app_name : String) : Result × List String :=
  match nodes.find? (fun n => n.name == machine_name) with
  | none =>
    (⟨.SKIPPED, some ("Machine " ++ machine_name ++ " does not exist in cluster database")⟩, [])
  | some node =>
    match application with
    | none => (⟨.SKIPPED, some ("Application " ++ app_name ++ " has not been deployed")⟩, [])
    | some app =>
      let units_to_remove :=
        (app.units.filter (fun u => u.machine.id == node.machineid)).map (fun u => u.name)
      if units_to_remove.isEmpty then
        (⟨.SKIPPED, none⟩, [])
      else
        (⟨.COMPLETED, none⟩, units_to_remove)

/-- Outcome of one infra-as-code apply attempt: success, the transient
state-lock-contention error (TerraformStateLockedException) or the generic
apply failure (TerraformException), the latter two carrying their message. -/
inductive ApplyOutcome where
  | ok
  | locked (msg : String)
  | err (msg : String)
deriving DecidableEq, Repr

/-- Modelled from the spec: the bounded retry discipline wrapped around the
infra-as-code apply call of `DeployMachineApplicationStep.run()` of the
missing sunbeam/core/steps.py.  `outcome i` is the result of attempt number
`i`, `budget` the number of retries still allowed and `pause` the pause
between attempts.  A successful attempt yields COMPLETED; a generic failure
yields FAILED with the original message and is never retried; the
state-lock-contention error is retried after a pause while budget remains,
and surfaces as FAILED with its message when the budget is exhausted.
Returned alongside the Result are the number of apply invocations made (the
second component counts up from the starting attempt index) and the total
pause waited. -/
def apply_with_retry (outcome : Nat → ApplyOutcome) (pause : Nat) :
    Nat → Nat → Result × Nat × Nat
  | 0, i =>
    match outcome i with
    | .ok => (⟨.COMPLETED, none⟩, i + 1, 0)
    | .err m => (⟨.FAILED, some m⟩, i + 1, 0)
    | .locked m => (⟨.FAILED, some m⟩, i + 1, 0)
  | b + 1, i =>
    match outcome i with
    | .ok => (⟨.COMPLETED, none⟩, i + 1, 0)
    | .err m => (⟨.FAILED, some m⟩, i + 1, 0)
    | .locked _ =>
      let r := apply_with_retry outcome pause b (i + 1)
      (r.1, r.2.1, r.2.2 + pause)

/-- The apply phase of `DeployMachineApplicationStep.run()`: attempts start
at index 0. -/
def deploy_run (outcome : Nat → ApplyOutcome) (budget pause : Nat) : Result × Nat × Nat :=
  apply_with_retry outcome pause budget 0

/-- A value of an infra-as-code override variable: a string or a list of
strings. -/
inductive TfVar where
  | str (v : String)
  | strList (vs : List String)
deriving DecidableEq, Repr

/-- Modelled from the spec: the override variables
`DeployMachineApplicationStep.run()` of the missing sunbeam/core/steps.py
passes to the infra-as-code apply call.  When the application exists the full
list of machine ids currently hosting its units is passed together with the
model as the machine_ids and machine_model overrides; when the application is
absent (ApplicationNotFoundException) the apply is made with no machine-id
override. -/
def deploy_apply_overrides (application : Option Application) (model : String) :
    List (String × TfVar) :=
  match application with
  | none => []
  | some app =>
    [("machine_ids", TfVar.strList (app.units.map (fun u => u.machine.id))),
     ("machine_model", TfVar.str model)]

/-- The deterministic behaviour of one step inside a plan: the Result its
is_skip() call produces and the Result its run() call produces. -/
structure StepBehavior where
  skip_result : Result
  run_result : Result
deriving DecidableEq, Repr

/-- The two result-returning methods of the Step contract. -/
inductive StepMethod where
  | isSkipCall
  | runCall
deriving DecidableEq, Repr

/-- Modelled from the spec: `run_plan(steps)` of the missing
sunbeam/jobs/common.py, instrumented with an invocation log.  Steps are
processed in order starting at index `i`.  Per step is_skip() is called
first: SKIPPED records the result and moves on, FAILED halts the whole plan
with that Result, otherwise run() is called and classified the same way.
Returned are the invocation log (step index and method, in call order), the
recorded results of the executed steps and `some r` exactly when a FAILED
Result `r` halted the plan. -/
def run_plan_from : Nat → List StepBehavior →
    List (Nat × StepMethod) × List Result × Option Result
  | _, [] => ([], [], none)
  | i, s :: rest =>
    match s.skip_result.result_type with
    | .SKIPPED =>
      let r := run_plan_from (i + 1) rest
      ((i, .isSkipCall) :: r.1, s.skip_result :: r.2.1, r.2.2)
    | .FAILED => ([(i, .isSkipCall)], [], some s.skip_result)
    | .COMPLETED =>
      match s.run_result.result_type with
      | .FAILED => ([(i, .isSkipCall), (i, .runCall)], [], some s.run_result)
      | _ =>
        let r := run_plan_from (i + 1) rest
        ((i, .isSkipCall) :: (i, .runCall) :: r.1, s.run_result :: r.2.1, r.2.2)

/-- The plan executor on a whole plan. -/
def run_plan (steps : List StepBehavior) :
    List (Nat × StepMethod) × List Result × Option Result :=
  run_plan_from 0 steps

/-- A step that produces no FAILED Result: its is_skip() does not fail and,
when is_skip() lets the step proceed, its run() does not fail either. -/
def step_ok (s : StepBehavior) : Prop :=
  s.skip_result.result_type ≠ .FAILED ∧
    (s.skip_result.result_type = .COMPLETED → s.run_result.result_type ≠ .FAILED)

instance (s : StepBehavior) : Decidable (step_ok s) := by
  unfold step_ok
  infer_instance

/-- A Python error relevant to the plugin interface: a TypeError from a call
with a wrong number of positional arguments, mirrored with its message. -/
inductive PyError where
  | typeError (msg : String)
deriving DecidableEq, Repr

/-- A persisted plugin-information mapping: a Python dict from string keys to
string values, embedded as an association list whose first entry for a key is
authoritative. -/
abbrev PluginInfo := List (String × String)

/-- Lookup of a key in a plugin-information mapping (Python `d.get(k)`). -/
def dict_get (d : PluginInfo) (k : String) : Option String :=
  (d.find? (fun p => p.1 == k)).map (fun p => p.2)

/-- Python `d.update(e)` on association lists: every key of `e` now maps to
its value in `e`, every other key keeps its value from `d`.  Entries of `d`
whose key occurs in `e` are dropped and `e` is appended. -/
def dict_update (d e : PluginInfo) : PluginInfo :=
  d.filter (fun p => (e.find? (fun q => q.1 == p.1)).isNone) ++ e

/-- `BasePlugin.get_plugin_info` as defined in
sunbeam/plugins/interface/v1/base.py lines 81 to 87, embedded together with
the positional arguments of the call (beyond self).  The method declares no
parameter besides self, so Python raises a TypeError whenever the argument
list is nonempty.  Otherwise it returns the mapping read from the cluster
database, where the ConfigItemNotFoundException raised for a missing record
(`persisted = none`) is caught and the empty dict returned. -/
def get_plugin_info_call (persisted : Option PluginInfo) (args : List String) :
    Except PyError PluginInfo :=
  if args.length != 0 then
    .error (.typeError "get_plugin_info() takes 1 positional argument but 2 were given")
  else
    match persisted with
    | none => .ok []
    | some info => .ok info

/-- Python `str.lower`. -/
def pyLower (s : String) : String := String.mk (s.data.map Char.toLower)

/-- The `EnableDisablePlugin.enabled` property exactly as written in
sunbeam/plugins/interface/v1/base.py lines 265 to 268: it calls
`self.get_plugin_info(self.plugin_key)`, passing one positional argument, and
on a returned mapping answers whether the "enabled" entry (defaulting to
"false") lowercases to "true". -/
def enabled_property (persisted : Option PluginInfo) (plugin_key : String) :
    Except PyError Bool :=
  match get_plugin_info_call persisted [plugin_key] with
  | .error e => .error e
  | .ok info => .ok (pyLower ((dict_get info "enabled").getD "false") == "true")

/-- `BasePlugin.update_plugin_info` as defined in
sunbeam/plugins/interface/v1/base.py lines 89 to 94: read the persisted
mapping (the empty dict when no record exists), update it with `info`, then
update it with the version entry carrying the declared plugin version, and
persist the outcome.  The function returns the mapping written back via
update_config. -/
def update_plugin_info (persisted : Option PluginInfo) (info : PluginInfo)
    (version : String) : PluginInfo :=
  dict_update (dict_update (persisted.getD []) info) [("version", version)]

/-- The step behaviours of the plan of the spec section 8 example: step A
completes both calls, step B completes is_skip and fails run, step C
completes both calls. -/
def planStepA : StepBehavior := ⟨⟨.COMPLETED, none⟩, ⟨.COMPLETED, none⟩⟩

/-- Step B of the example plan: run() produces the FAILED Result. -/
def planStepB : StepBehavior := ⟨⟨.COMPLETED, none⟩, ⟨.FAILED, some "B failed"⟩⟩

/-- Step C of the example plan: it must never be invoked. -/
def planStepC : StepBehavior := ⟨⟨.COMPLETED, none⟩, ⟨.COMPLETED, none⟩⟩

/-- The application of test_run_already_deployed: units on machines 1 and 2. -/
def deployedApp : Application :=
  ⟨[⟨"app1/0", ⟨"1"⟩⟩, ⟨"app1/1", ⟨"2"⟩⟩]⟩

/-- Apply outcomes of test_run_tf_apply_locked: the first attempt hits the
state lock, the second succeeds. -/
def lockedThenOk : Nat → ApplyOutcome :=
  fun n => if n = 0 then .locked "apply failed..." else .ok

/-- Apply outcomes of test_run_tf_apply_failed: every attempt raises the
generic TerraformException. -/
def alwaysErr : Nat → ApplyOutcome :=
  fun _ => .err "apply failed..."

theorem data_append (s t : String) : (s ++ t).data = s.data ++ t.data := rfl

theorem hasSlash_append (l₁ l₂ : List Char) :
    hasSlash (l₁ ++ l₂) = (hasSlash l₁ || hasSlash l₂) := by
  induction l₁ with
  | nil => simp [hasSlash]
  | cons c cs ih => simp [hasSlash, ih, Bool.or_assoc]

/-- Claim C9: normalise_channel returns a channel containing "/" unchanged
and prefixes "latest/" otherwise; consequently it is idempotent. -/
theorem normalise_channel_spec :
    (∀ c : String, hasSlash c.data = true → normalise_channel c = c) ∧
    (∀ c : String, hasSlash c.data = false → normalise_channel c = "latest/" ++ c) ∧
    (∀ c : String, normalise_channel (normalise_channel c) = normalise_channel c) := by
  refine ⟨fun c h => by simp [normalise_channel, h],
          fun c h => by simp [normalise_channel, h],
          fun c => ?_⟩
  by_cases h : hasSlash c.data
  · simp [normalise_channel, h]
  · have h2 : hasSlash ("latest/" ++ c).data = true := by
      rw [data_append, hasSlash_append]
      have h3 : hasSlash "latest/".data = true := by decide
      simp [h3]
    have e1 : normalise_channel c = "latest/" ++ c := by
      unfold normalise_channel
      rw [if_neg h]
    rw [e1]
    unfold normalise_channel
    rw [if_pos h2]

/-- Witness for C9 at the channels of test_normalise_channel. -/
theorem normalise_channel_spec_witness :
    normalise_channel "2023.2/edge" = "2023.2/edge" ∧
    normalise_channel "edge" = "latest/" ++ "edge" ∧
    normalise_channel (normalise_channel "edge") = normalise_channel "edge" :=
  ⟨normalise_channel_spec.1 "2023.2/edge" (by decide),
   normalise_channel_spec.2.1 "edge" (by decide),
   normalise_channel_spec.2.2 "edge"⟩

/-- Claim C2: channel_update_needed normalises both channels and splits each
into track and risk; with differing tracks it reports an update exactly when
the target track is lexically greater (never a downgrade, in particular false
for deployed 2023.2/stable and target 2023.1/stable); with equal tracks it
reports an update exactly when the risks differ; and it is false on every
pair of equal channels. -/
theorem channel_update_needed_spec :
    (∀ d t dtrack drisk ttrack trisk,
        well_formed_channel d = true → well_formed_channel t = true →
        channelParts d = [dtrack, drisk] → channelParts t = [ttrack, trisk] →
        dtrack ≠ ttrack →
        (channel_update_needed d t = true ↔ dtrack < ttrack)) ∧
    channel_update_needed "2023.2/stable" "2023.1/stable" = false ∧
    (∀ d t dtrack drisk ttrack trisk,
        well_formed_channel d = true → well_formed_channel t = true →
        channelParts d = [dtrack, drisk] → channelParts t = [ttrack, trisk] →
        dtrack = ttrack →
        (channel_update_needed d t = true ↔ drisk ≠ trisk)) ∧
    (∀ x, channel_update_needed x x = false) := by
  refine ⟨?_, by decide, ?_, ?_⟩
  · intro d t dtrack drisk ttrack trisk _ _ hd ht hne
    simp [channel_update_needed, hd, ht, hne]
  · intro d t dtrack drisk ttrack trisk _ _ hd ht heq
    subst heq
    simp [channel_update_needed, hd, ht]
  · intro x
    rcases h : channelParts x with _ | ⟨a, _ | ⟨b, _ | ⟨c, l⟩⟩⟩ <;>
      simp [channel_update_needed, h]

/-- Witness for C2 at the channels of test_channel_update_needed. -/
theorem channel_update_needed_spec_witness :
    channel_update_needed "2023.1/stable" "2023.2/stable" = true ∧
    channel_update_needed "2023.1/stable" "2023.1/edge" = true ∧
    channel_update_needed "latest/stable" "latest/stable" = false :=
  ⟨(channel_update_needed_spec.1 "2023.1/stable" "2023.2/stable"
      "2023.1".data "stable".data "2023.2".data "stable".data
      (by decide) (by decide) (by decide) (by decide) (by decide)).mpr (by decide),
   (channel_update_needed_spec.2.2.1 "2023.1/stable" "2023.1/edge"
      "2023.1".data "stable".data "2023.1".data "edge".data
      (by decide) (by decide) (by decide) (by decide) rfl).mpr (by decide),
   channel_update_needed_spec.2.2.2 "latest/stable"⟩

/-- Claim C6: with an existing application DeployMachineApplicationStep.run
passes the full list of machine ids hosting units plus the model as the
apply overrides, exactly the pair of machine_ids and machine_model variables;
with the application absent it applies with no machine-id override. -/
theorem deploy_apply_overrides_spec :
    deploy_apply_overrides (some deployedApp) "model1" =
      [("machine_ids", TfVar.strList ["1", "2"]), ("machine_model", TfVar.str "model1")] ∧
    (∀ model, deploy_apply_overrides none model = []) ∧
    (∀ app model, deploy_apply_overrides (some app) model =
      [("machine_ids", TfVar.strList (app.units.map (fun u => u.machine.id))),
       ("machine_model", TfVar.str model)]) :=
  ⟨rfl, fun _ => rfl, fun _ _ => rfl⟩

theorem find?_filter_none {e : PluginInfo} {k : String} (d : PluginInfo) {q : String × String}
    (he : e.find? (fun q => q.1 == k) = some q) :
    (d.filter (fun p => (e.find? (fun q => q.1 == p.1)).isNone)).find?
      (fun p => p.1 == k) = none := by
  rw [List.find?_eq_none]
  intro x hx hpk
  rcases List.mem_filter.mp hx with ⟨_, hf⟩
  have hxk : x.1 = k := by simpa using hpk
  rw [hxk, he] at hf
  simp at hf

theorem find?_filter_same {e : PluginInfo} {k : String} (d : PluginInfo)
    (he : e.find? (fun q => q.1 == k) = none) :
    (d.filter (fun p => (e.find? (fun q => q.1 == p.1)).isNone)).find?
      (fun p => p.1 == k) = d.find? (fun p => p.1 == k) := by
  induction d with
  | nil => rfl
  | cons a d ih =>
    by_cases hak : a.1 = k
    · subst hak
      have hfa2 : (e.find? (fun q => q.1 == a.1)).isNone = true := by
        rw [he]
        rfl
      have hg : (a.1 == a.1) = true := by simp
      simp only [List.filter_cons, List.find?_cons, hfa2, hg, if_true]
    · have hbeq : (a.1 == k) = false := by simp [hak]
      by_cases hfa : (e.find? (fun q => q.1 == a.1)).isNone = true
      · simp only [List.filter_cons, List.find?_cons, hfa, hbeq, if_true]
        exact ih
      · rw [Bool.not_eq_true] at hfa
        simp only [List.filter_cons, List.find?_cons, hfa, hbeq, if_false]
        exact ih

theorem dict_get_update_of_mem {e : PluginInfo} {k : String} {q : String × String}
    (d : PluginInfo) (he : e.find? (fun q => q.1 == k) = some q) :
    dict_get (dict_update d e) k = some q.2 := by
  unfold dict_get dict_update
  rw [List.find?_append, find?_filter_none d he]
  simp [he]

theorem dict_get_update_of_not_mem {e : PluginInfo} {k : String}
    (d : PluginInfo) (he : e.find? (fun q => q.1 == k) = none) :
    dict_get (dict_update d e) k = dict_get d k := by
  unfold dict_get dict_update
  rw [List.find?_append, find?_filter_same d he]
  cases hd : d.find? (fun p => p.1 == k) <;> simp [he]

/-- Claim C10: the mapping update_plugin_info writes back keeps, on every key
absent from info, the previously persisted value; takes, on every key of info
other than version, the value from info; and always carries the declared
plugin version under the version key, overriding any caller-supplied
version value. -/
theorem update_plugin_info_spec :
    ∀ (persisted : Option PluginInfo) (info : PluginInfo) (version k : String),
      dict_get (update_plugin_info persisted info version) k =
        if k = "version" then some version
        else
          match dict_get info k with
          | some v => some v
          | none => dict_get (persisted.getD []) k := by
  intro persisted info version k
  by_cases hk : k = "version"
  · subst hk
    have he : ([("version", version)] : PluginInfo).find? (fun q => q.1 == "version") =
        some ("version", version) := by simp
    rw [update_plugin_info, dict_get_update_of_mem _ he, if_pos rfl]
  · have hbeq : (("version" : String) == k) = false := by
      simp only [beq_eq_false_iff_ne]
      exact Ne.symm hk
    have he : ([("version", version)] : PluginInfo).find? (fun q => q.1 == k) = none := by
      simp [hbeq]
    rw [update_plugin_info, dict_get_update_of_not_mem _ he, if_neg hk]
    cases hi : info.find? (fun q => q.1 == k) with
    | some q =>
      rw [dict_get_update_of_mem _ hi]
      simp [dict_get, hi]
    | none =>
      rw [dict_get_update_of_not_mem _ hi]
      simp [dict_get, hi]

/-- Claim C8 (code bug): the enabled property as written always raises
TypeError, because it calls get_plugin_info with self.plugin_key although
the method accepts no positional argument besides self; in particular with
no record persisted it raises instead of returning false. -/
theorem enabled_property_raises_type_error :
    enabled_property none "Plugin-caas" =
      .error (.typeError "get_plugin_info() takes 1 positional argument but 2 were given") ∧
    (∀ persisted plugin_key, enabled_property persisted plugin_key =
      .error (.typeError "get_plugin_info() takes 1 positional argument but 2 were given")) :=
  ⟨rfl, fun _ _ => rfl⟩

/-- Counterexample to claim C3: on the status and available revisions of
test_revision_update_needed, revision_update_needed is false for nova
although the available revision 31 on its channel exceeds the deployed
revision 30, because the deployed channel 2023.2/edge/gnuoy carries a third,
branch component: the claimed value true is refuted. -/
theorem revision_update_needed_nova_counterexample :
    revision_update_needed revisionTestAvail "nova" "openstack" revisionTestStatus = false ∧
    revisionTestAvail "openstack" "nova-k8s" (normalise_channel "2023.2/edge/gnuoy") = 31 ∧
    extract_charm_revision "ch:amd64/jammy/nova-k8s-30" = 30 := by decide

/-- Claim C3 amended: revision_update_needed reads the deployed channel and
revision of the application from the status, queries the controller for the
latest available revision on that channel, and returns true iff the deployed
channel has at most two components (no branch) and the available revision is
strictly greater than the deployed one; on the test data it returns false,
true, false for nova, cinder and another respectively. -/
theorem revision_update_needed_amended :
    (∀ (avail : String → String → String → Nat) (app model : String)
        (applications : List (String × AppStatus)) (st : String × AppStatus),
        applications.find? (fun p => p.1 == app) = some st →
        (revision_update_needed avail app model applications = true ↔
          ((splitSlash (normalise_channel st.2.charm_channel).data).length ≤ 2 ∧
            extract_charm_revision st.2.charm <
              avail model (extract_charm_name st.2.charm)
                (normalise_channel st.2.charm_channel)))) ∧
    revision_update_needed revisionTestAvail "nova" "openstack" revisionTestStatus = false ∧
    revision_update_needed revisionTestAvail "cinder" "openstack" revisionTestStatus = true ∧
    revision_update_needed revisionTestAvail "another" "openstack" revisionTestStatus = false := by
  refine ⟨?_, by decide, by decide, by decide⟩
  intro avail app model applications st hfind
  unfold revision_update_needed
  rw [hfind]
  show (if 2 < (splitSlash (normalise_channel st.2.charm_channel).data).length then false
      else decide (extract_charm_revision st.2.charm <
        avail model (extract_charm_name st.2.charm)
          (normalise_channel st.2.charm_channel))) = true ↔ _
  by_cases hl : 2 < (splitSlash (normalise_channel st.2.charm_channel).data).length
  · rw [if_pos hl]
    constructor
    · intro h
      exact absurd h (by simp)
    · rintro ⟨h1, _⟩
      omega
  · rw [if_neg hl]
    rw [Nat.not_lt] at hl
    simp [hl]

/-- Witness for the amended C3 at the cinder application of the test data. -/
theorem revision_update_needed_amended_witness :
    revision_update_needed revisionTestAvail "cinder" "openstack" revisionTestStatus = true :=
  (revision_update_needed_amended.1 revisionTestAvail "cinder" "openstack" revisionTestStatus
    ("cinder", ⟨"ch:amd64/jammy/cinder-k8s-50", "2023.2/edge"⟩) (by decide)).mpr (by decide)

/-- Counterexample to claim C4: with machine1 present in the membership store
and the application absent, AddMachineUnitsStep.is_skip reports FAILED with
the message Application app1 has not been deployed, not COMPLETED as the
claim states. -/
theorem addMachineUnits_missing_app_counterexample :
    (addMachineUnits_is_skip [⟨"machine1", "1"⟩] none "machine1" "app1").result_type ≠
      ResultType.COMPLETED ∧
    addMachineUnits_is_skip [⟨"machine1", "1"⟩] none "machine1" "app1" =
      ⟨.FAILED, some "Application app1 has not been deployed"⟩ := by decide

/-- Claim C4 amended: AddMachineUnitsStep.is_skip resolves the named machine
via the membership store and classifies: machine absent from the store gives
FAILED with a message containing does not exist in cluster database;
application not found gives FAILED with the message Application <name> has
not been deployed; application found with the resolved machine id already
hosting a unit gives SKIPPED; otherwise COMPLETED. -/
theorem addMachineUnits_is_skip_amended :
    (∀ nodes machine_name app_name application,
        nodes.find? (fun n => n.name == machine_name) = none →
        (addMachineUnits_is_skip nodes application machine_name app_name).result_type =
          ResultType.FAILED ∧
        ∃ m, (addMachineUnits_is_skip nodes application machine_name app_name).message =
            some m ∧
          "does not exist in cluster database".data <:+: m.data) ∧
    (∀ nodes machine_name app_name node,
        nodes.find? (fun n => n.name == machine_name) = some node →
        addMachineUnits_is_skip nodes none machine_name app_name =
          ⟨.FAILED, some ("Application " ++ app_name ++ " has not been deployed")⟩) ∧
    (∀ nodes machine_name app_name node app,
        nodes.find? (fun n => n.name == machine_name) = some node →
        app.units.any (fun u => u.machine.id == node.machineid) = true →
        addMachineUnits_is_skip nodes (some app) machine_name app_name =
          ⟨.SKIPPED, none⟩) ∧
    (∀ nodes machine_name app_name node app,
        nodes.find? (fun n => n.name == machine_name) = some node →
        app.units.any (fun u => u.machine.id == node.machineid) = false →
        addMachineUnits_is_skip nodes (some app) machine_name app_name =
          ⟨.COMPLETED, none⟩) := by
  refine ⟨?_, ?_, ?_, ?_⟩
  · intro nodes machine_name app_name application hfind
    unfold addMachineUnits_is_skip
    rw [hfind]
    refine ⟨rfl, "Machine " ++ machine_name ++ " does not exist in cluster database",
      rfl, ?_⟩
    have h0 : (" does not exist in cluster database" : String).data =
        ' ' :: "does not exist in cluster database".data := by decide
    have hs : "does not exist in cluster database".data <:+
        ("Machine " ++ machine_name ++ " does not exist in cluster database").data := by
      rw [data_append, h0]
      exact List.IsSuffix.trans (List.suffix_cons ' ' _) (List.suffix_append _ _)
    exact hs.isInfix
  · intro nodes machine_name app_name node hfind
    unfold addMachineUnits_is_skip
    rw [hfind]
  · intro nodes machine_name app_name node app hfind hany
    unfold addMachineUnits_is_skip
    rw [hfind]
    simp [hany]
  · intro nodes machine_name app_name node app hfind hany
    unfold addMachineUnits_is_skip
    rw [hfind]
    simp [hany]

/-- Witness for the amended C4 at the concrete inputs of
TestAddMachineUnitsStep. -/
theorem addMachineUnits_is_skip_amended_witness :
    (addMachineUnits_is_skip [] none "machine1" "app1").result_type = ResultType.FAILED ∧
    addMachineUnits_is_skip [⟨"machine1", "1"⟩] none "machine1" "app1" =
      ⟨.FAILED, some ("Application " ++ "app1" ++ " has not been deployed")⟩ ∧
    addMachineUnits_is_skip [⟨"machine1", "1"⟩] (some ⟨[⟨"app1/0", ⟨"1"⟩⟩]⟩)
      "machine1" "app1" = ⟨.SKIPPED, none⟩ ∧
    addMachineUnits_is_skip [⟨"machine1", "1"⟩] (some ⟨[]⟩) "machine1" "app1" =
      ⟨.COMPLETED, none⟩ :=
  ⟨(addMachineUnits_is_skip_amended.1 [] "machine1" "app1" none (by decide)).1,
   addMachineUnits_is_skip_amended.2.1 [⟨"machine1", "1"⟩] "machine1" "app1"
     ⟨"machine1", "1"⟩ (by decide),
   addMachineUnits_is_skip_amended.2.2.1 [⟨"machine1", "1"⟩] "machine1" "app1"
     ⟨"machine1", "1"⟩ ⟨[⟨"app1/0", ⟨"1"⟩⟩]⟩ (by decide) (by decide),
   addMachineUnits_is_skip_amended.2.2.2 [⟨"machine1", "1"⟩] "machine1" "app1"
     ⟨"machine1", "1"⟩ ⟨[]⟩ (by decide) (by decide)⟩

/-- Claim C7: RemoveMachineUnitsStep.is_skip never reports FAILED; it
reports SKIPPED when the named machine is absent from the membership store,
when the application does not exist and when no unit of the application
matches the resolved machine id; only when a matching unit exists does it
report COMPLETED, caching the resolved unit names for run(). -/
theorem removeMachineUnits_is_skip_spec :
    (∀ nodes application machine_name app_name,
        (removeMachineUnits_is_skip nodes application machine_name app_name).1.result_type ≠
          ResultType.FAILED) ∧
    (∀ nodes machine_name app_name application,
        nodes.find? (fun n => n.name == machine_name) = none →
        (removeMachineUnits_is_skip nodes application machine_name app_name).1.result_type =
          ResultType.SKIPPED) ∧
    (∀ nodes machine_name app_name node,
        nodes.find? (fun n => n.name == machine_name) = some node →
        (removeMachineUnits_is_skip nodes none machine_name app_name).1.result_type =
          ResultType.SKIPPED) ∧
    (∀ nodes machine_name app_name node app,
        nodes.find? (fun n => n.name == machine_name) = some node →
        app.units.filter (fun u => u.machine.id == node.machineid) = [] →
        (removeMachineUnits_is_skip nodes (some app) machine_name app_name).1.result_type =
          ResultType.SKIPPED) ∧
    (∀ nodes machine_name app_name node app,
        nodes.find? (fun n => n.name == machine_name) = some node →
        app.units.filter (fun u => u.machine.id == node.machineid) ≠ [] →
        removeMachineUnits_is_skip nodes (some app) machine_name app_name =
          (⟨ResultType.COMPLETED, none⟩,
            (app.units.filter (fun u => u.machine.id == node.machineid)).map
              (fun u => u.name))) := by
  refine ⟨?_, ?_, ?_, ?_, ?_⟩
  · intro nodes application machine_name app_name
    unfold removeMachineUnits_is_skip
    cases hfind : nodes.find? (fun n => n.name == machine_name) with
    | none => simp
    | some node =>
      cases application with
      | none => simp
      | some app =>
        by_cases he :
            ((app.units.filter (fun u => u.machine.id == node.machineid)).map
              (fun u => u.name)).isEmpty
        · simp [he]
        · simp [he]
  · intro nodes machine_name app_name application hfind
    unfold removeMachineUnits_is_skip
    rw [hfind]
  · intro nodes machine_name app_name node hfind
    unfold removeMachineUnits_is_skip
    rw [hfind]
  · intro nodes machine_name app_name node app hfind hempty
    unfold removeMachineUnits_is_skip
    rw [hfind]
    simp [hempty]
  · intro nodes machine_name app_name node app hfind hne
    unfold removeMachineUnits_is_skip
    rw [hfind]
    have he :
        ((app.units.filter (fun u => u.machine.id == node.machineid)).map
          (fun u => u.name)).isEmpty = false := by
      simp [List.isEmpty_iff, hne]
    simp [he]

/-- Witness for C7 at the concrete inputs of TestRemoveMachineUnitStep. -/
theorem removeMachineUnits_is_skip_spec_witness :
    (removeMachineUnits_is_skip [⟨"node-0", "1"⟩] none "node-1" "app1").1.result_type =
      ResultType.SKIPPED ∧
    (removeMachineUnits_is_skip [⟨"node-0", "1"⟩] none "node-0" "app1").1.result_type =
      ResultType.SKIPPED ∧
    (removeMachineUnits_is_skip [⟨"node-0", "1"⟩] (some ⟨[]⟩) "node-0" "app1").1.result_type =
      ResultType.SKIPPED ∧
    removeMachineUnits_is_skip [⟨"node-0", "1"⟩] (some ⟨[⟨"app1/0", ⟨"1"⟩⟩]⟩)
      "node-0" "app1" = (⟨ResultType.COMPLETED, none⟩, ["app1/0"]) :=
  ⟨removeMachineUnits_is_skip_spec.2.1 [⟨"node-0", "1"⟩] "node-1" "app1" none (by decide),
   removeMachineUnits_is_skip_spec.2.2.1 [⟨"node-0", "1"⟩] "node-0" "app1"
     ⟨"node-0", "1"⟩ (by decide),
   removeMachineUnits_is_skip_spec.2.2.2.1 [⟨"node-0", "1"⟩] "node-0" "app1"
     ⟨"node-0", "1"⟩ ⟨[]⟩ (by decide) (by decide),
   removeMachineUnits_is_skip_spec.2.2.2.2 [⟨"node-0", "1"⟩] "node-0" "app1"
     ⟨"node-0", "1"⟩ ⟨[⟨"app1/0", ⟨"1"⟩⟩]⟩ (by decide) (by decide)⟩

theorem apply_with_retry_count_le (outcome : Nat → ApplyOutcome) (pause : Nat) :
    ∀ budget i, (apply_with_retry outcome pause budget i).2.1 ≤ i + budget + 1 := by
  intro budget
  induction budget with
  | zero =>
    intro i
    cases h : outcome i <;> simp [apply_with_retry, h]
  | succ b ih =>
    intro i
    cases h : outcome i with
    | ok => simp [apply_with_retry, h]
    | err m => simp [apply_with_retry, h]
    | locked m =>
      have hb := ih (i + 1)
      simp [apply_with_retry, h]
      omega

theorem apply_with_retry_locked_then_ok (outcome : Nat → ApplyOutcome) (pause : Nat) :
    ∀ k budget i, k ≤ budget →
      (∀ j, j < k → ∃ m, outcome (i + j) = ApplyOutcome.locked m) →
      outcome (i + k) = ApplyOutcome.ok →
      apply_with_retry outcome pause budget i =
        (⟨ResultType.COMPLETED, none⟩, i + k + 1, k * pause) := by
  intro k
  induction k with
  | zero =>
    intro budget i _ _ hok
    rw [Nat.add_zero] at hok
    cases budget <;> simp [apply_with_retry, hok]
  | succ k ih =>
    intro budget i hkb hlocked hok
    obtain ⟨m, hm⟩ := hlocked 0 (Nat.succ_pos k)
    rw [Nat.add_zero] at hm
    cases budget with
    | zero => omega
    | succ b =>
      have hrec := ih b (i + 1) (by omega)
        (fun j hj => by
          have hx := hlocked (j + 1) (by omega)
          rwa [show i + (j + 1) = (i + 1) + j by omega] at hx)
        (by rwa [show (i + 1) + k = i + (k + 1) by omega])
      simp only [apply_with_retry, hm, hrec, Prod.mk.injEq]
      exact ⟨trivial, by omega, by rw [Nat.succ_mul]⟩

/-- Claim C5: the apply phase of DeployMachineApplicationStep.run retries
only on the transient state-lock-contention error with a bounded attempt
budget and an inter-attempt pause, returning COMPLETED when a later attempt
succeeds; a generic apply failure is never retried and immediately yields
FAILED carrying the original message verbatim after exactly one
invocation. -/
theorem deploy_run_retry_spec :
    (∀ (outcome : Nat → ApplyOutcome) budget pause m,
        outcome 0 = ApplyOutcome.err m →
        deploy_run outcome budget pause = (⟨ResultType.FAILED, some m⟩, 1, 0)) ∧
    (∀ (outcome : Nat → ApplyOutcome) budget pause k,
        k ≤ budget →
        (∀ j, j < k → ∃ msg, outcome j = ApplyOutcome.locked msg) →
        outcome k = ApplyOutcome.ok →
        deploy_run outcome budget pause =
          (⟨ResultType.COMPLETED, none⟩, k + 1, k * pause)) ∧
    (∀ (outcome : Nat → ApplyOutcome) budget pause,
        (deploy_run outcome budget pause).2.1 ≤ budget + 1) := by
  refine ⟨?_, ?_, ?_⟩
  · intro outcome budget pause m h
    cases budget <;> simp [deploy_run, apply_with_retry, h]
  · intro outcome budget pause k hkb hlocked hok
    have h := apply_with_retry_locked_then_ok outcome pause k budget 0 hkb
      (fun j hj => by simpa using hlocked j hj) (by simpa using hok)
    simpa using h
  · intro outcome budget pause
    have h := apply_with_retry_count_le outcome pause budget 0
    simpa using h

/-- Witness for C5 at the outcomes of test_run_tf_apply_failed and
test_run_tf_apply_locked. -/
theorem deploy_run_retry_spec_witness :
    deploy_run alwaysErr 5 0 = (⟨ResultType.FAILED, some "apply failed..."⟩, 1, 0) ∧
    deploy_run lockedThenOk 5 0 = (⟨ResultType.COMPLETED, none⟩, 2, 0) :=
  ⟨deploy_run_retry_spec.1 alwaysErr 5 0 "apply failed..." rfl,
   by
    have h := deploy_run_retry_spec.2.1 lockedThenOk 5 0 1 (by omega)
      (fun j hj => ⟨"apply failed...", by
        have hj0 : j = 0 := by omega
        subst hj0
        rfl⟩) rfl
    simpa using h⟩

theorem run_plan_from_le (steps : List StepBehavior) :
    ∀ i, (∀ p ∈ (run_plan_from i steps).1, i ≤ p.1) ∧
      List.Pairwise (fun p q => p.1 ≤ q.1) (run_plan_from i steps).1 := by
  induction steps with
  | nil =>
    intro i
    exact ⟨fun p hp => by simp [run_plan_from] at hp, by simp [run_plan_from]⟩
  | cons s rest ih =>
    intro i
    have ihr := ih (i + 1)
    cases hskip : s.skip_result.result_type with
    | FAILED =>
      constructor
      · intro p hp
        simp [run_plan_from, hskip] at hp
        simp [hp]
      · simp [run_plan_from, hskip]
    | SKIPPED =>
      constructor
      · intro p hp
        simp [run_plan_from, hskip] at hp
        rcases hp with rfl | hp
        · simp
        · have := ihr.1 p hp
          omega
      · simp only [run_plan_from, hskip]
        rw [List.pairwise_cons]
        constructor
        · intro q hq
          have := ihr.1 q hq
          show i ≤ q.1
          omega
        · exact ihr.2
    | COMPLETED =>
      cases hrun : s.run_result.result_type with
      | FAILED =>
        constructor
        · intro p hp
          simp [run_plan_from, hskip, hrun] at hp
          rcases hp with rfl | rfl <;> simp
        · simp [run_plan_from, hskip, hrun]
      | COMPLETED =>
        constructor
        · intro p hp
          simp [run_plan_from, hskip, hrun] at hp
          rcases hp with rfl | rfl | hp
          · simp
          · simp
          · have := ihr.1 p hp
            omega
        · simp only [run_plan_from, hskip, hrun]
          rw [List.pairwise_cons]
          constructor
          · intro q hq
            rcases List.mem_cons.mp hq with rfl | hq
            · simp
            · have := ihr.1 q hq
              show i ≤ q.1
              omega
          · rw [List.pairwise_cons]
            constructor
            · intro q hq
              have := ihr.1 q hq
              show i ≤ q.1
              omega
            · exact ihr.2
      | SKIPPED =>
        constructor
        · intro p hp
          simp [run_plan_from, hskip, hrun] at hp
          rcases hp with rfl | rfl | hp
          · simp
          · simp
          · have := ihr.1 p hp
            omega
        · simp only [run_plan_from, hskip, hrun]
          rw [List.pairwise_cons]
          constructor
          · intro q hq
            rcases List.mem_cons.mp hq with rfl | hq
            · simp
            · have := ihr.1 q hq
              show i ≤ q.1
              omega
          · rw [List.pairwise_cons]
            constructor
            · intro q hq
              have := ihr.1 q hq
              show i ≤ q.1
              omega
            · exact ihr.2

theorem run_plan_from_no_fail (steps : List StepBehavior) :
    ∀ i, (∀ s ∈ steps, step_ok s) →
      (run_plan_from i steps).2.2 = none ∧
      (run_plan_from i steps).2.1 = steps.map (fun s =>
        if s.skip_result.result_type = ResultType.SKIPPED then s.skip_result
        else s.run_result) ∧
      (∀ j, j < steps.length →
        (i + j, StepMethod.isSkipCall) ∈ (run_plan_from i steps).1) := by
  induction steps with
  | nil =>
    intro i _
    refine ⟨rfl, rfl, ?_⟩
    intro j hj
    simp at hj
  | cons s rest ih =>
    intro i hok
    have hs := hok s (List.mem_cons_self s rest)
    have ihr := ih (i + 1) (fun x hx => hok x (List.mem_cons_of_mem s hx))
    cases hskip : s.skip_result.result_type with
    | FAILED => exact absurd hskip hs.1
    | SKIPPED =>
      refine ⟨?_, ?_, ?_⟩
      · simp [run_plan_from, hskip, ihr.1]
      · simp [run_plan_from, hskip, ihr.2.1]
      · intro j hj
        cases j with
        | zero => simp [run_plan_from, hskip]
        | succ j0 =>
          have hmem := ihr.2.2 j0 (by simpa using hj)
          simp only [run_plan_from, hskip]
          refine List.mem_cons_of_mem _ ?_
          rwa [show i + (j0 + 1) = (i + 1) + j0 by omega]
    | COMPLETED =>
      have hrun_ne := hs.2 hskip
      cases hrun : s.run_result.result_type with
      | FAILED => exact absurd hrun hrun_ne
      | COMPLETED =>
        refine ⟨?_, ?_, ?_⟩
        · simp [run_plan_from, hskip, hrun, ihr.1]
        · simp [run_plan_from, hskip, hrun, ihr.2.1]
        · intro j hj
          cases j with
          | zero => simp [run_plan_from, hskip, hrun]
          | succ j0 =>
            have hmem := ihr.2.2 j0 (by simpa using hj)
            simp only [run_plan_from, hskip, hrun]
            refine List.mem_cons_of_mem _ (List.mem_cons_of_mem _ ?_)
            rwa [show i + (j0 + 1) = (i + 1) + j0 by omega]
      | SKIPPED =>
        refine ⟨?_, ?_, ?_⟩
        · simp [run_plan_from, hskip, hrun, ihr.1]
        · simp [run_plan_from, hskip, hrun, ihr.2.1]
        · intro j hj
          cases j with
          | zero => simp [run_plan_from, hskip, hrun]
          | succ j0 =>
            have hmem := ihr.2.2 j0 (by simpa using hj)
            simp only [run_plan_from, hskip, hrun]
            refine List.mem_cons_of_mem _ (List.mem_cons_of_mem _ ?_)
            rwa [show i + (j0 + 1) = (i + 1) + j0 by omega]

theorem run_plan_from_halt (pre : List StepBehavior) :
    ∀ i (b : StepBehavior) post, (∀ s ∈ pre, step_ok s) →
      ((b.skip_result.result_type = ResultType.FAILED →
          (run_plan_from i (pre ++ b :: post)).2.2 = some b.skip_result ∧
          ∀ p ∈ (run_plan_from i (pre ++ b :: post)).1, p.1 ≤ i + pre.length) ∧
       (b.skip_result.result_type = ResultType.COMPLETED →
          b.run_result.result_type = ResultType.FAILED →
          (run_plan_from i (pre ++ b :: post)).2.2 = some b.run_result ∧
          ∀ p ∈ (run_plan_from i (pre ++ b :: post)).1, p.1 ≤ i + pre.length)) := by
  induction pre with
  | nil =>
    intro i b post _
    constructor
    · intro hb
      constructor
      · simp [run_plan_from, hb]
      · intro p hp
        simp [run_plan_from, hb] at hp
        simp [hp]
    · intro hb hr
      constructor
      · simp [run_plan_from, hb, hr]
      · intro p hp
        simp [run_plan_from, hb, hr] at hp
        rcases hp with rfl | rfl <;> simp
  | cons s pre ih =>
    intro i b post hok
    have hs := hok s (List.mem_cons_self s pre)
    have ihp := ih (i + 1) b post (fun x hx => hok x (List.mem_cons_of_mem s hx))
    cases hskip : s.skip_result.result_type with
    | FAILED => exact absurd hskip hs.1
    | SKIPPED =>
      constructor
      · intro hb
        have h1 := ihp.1 hb
        constructor
        · simp [run_plan_from, hskip, h1.1]
        · intro p hp
          simp only [List.cons_append, run_plan_from, hskip] at hp
          rcases List.mem_cons.mp hp with rfl | hp
          · show i ≤ i + (s :: pre).length
            simp
          · have h2 := h1.2 p hp
            simp only [List.length_cons]
            omega
      · intro hb hr
        have h1 := ihp.2 hb hr
        constructor
        · simp [run_plan_from, hskip, h1.1]
        · intro p hp
          simp only [List.cons_append, run_plan_from, hskip] at hp
          rcases List.mem_cons.mp hp with rfl | hp
          · show i ≤ i + (s :: pre).length
            simp
          · have h2 := h1.2 p hp
            simp only [List.length_cons]
            omega
    | COMPLETED =>
      have hrun_ne := hs.2 hskip
      cases hrun : s.run_result.result_type with
      | FAILED => exact absurd hrun hrun_ne
      | COMPLETED =>
        constructor
        · intro hb
          have h1 := ihp.1 hb
          constructor
          · simp [run_plan_from, hskip, hrun, h1.1]
          · intro p hp
            simp only [List.cons_append, run_plan_from, hskip, hrun] at hp
            rcases List.mem_cons.mp hp with rfl | hp
            · show i ≤ i + (s :: pre).length
              simp
            · rcases List.mem_cons.mp hp with rfl | hp
              · show i ≤ i + (s :: pre).length
                simp
              · have h2 := h1.2 p hp
                simp only [List.length_cons]
                omega
        · intro hb hr
          have h1 := ihp.2 hb hr
          constructor
          · simp [run_plan_from, hskip, hrun, h1.1]
          · intro p hp
            simp only [List.cons_append, run_plan_from, hskip, hrun] at hp
            rcases List.mem_cons.mp hp with rfl | hp
            · show i ≤ i + (s :: pre).length
              simp
            · rcases List.mem_cons.mp hp with rfl | hp
              · show i ≤ i + (s :: pre).length
                simp
              · have h2 := h1.2 p hp
                simp only [List.length_cons]
                omega
      | SKIPPED =>
        constructor
        · intro hb
          have h1 := ihp.1 hb
          constructor
          · simp [run_plan_from, hskip, hrun, h1.1]
          · intro p hp
            simp only [List.cons_append, run_plan_from, hskip, hrun] at hp
            rcases List.mem_cons.mp hp with rfl | hp
            · show i ≤ i + (s :: pre).length
              simp
            · rcases List.mem_cons.mp hp with rfl | hp
              · show i ≤ i + (s :: pre).length
                simp
              · have h2 := h1.2 p hp
                simp only [List.length_cons]
                omega
        · intro hb hr
          have h1 := ihp.2 hb hr
          constructor
          · simp [run_plan_from, hskip, hrun, h1.1]
          · intro p hp
            simp only [List.cons_append, run_plan_from, hskip, hrun] at hp
            rcases List.mem_cons.mp hp with rfl | hp
            · show i ≤ i + (s :: pre).length
              simp
            · rcases List.mem_cons.mp hp with rfl | hp
              · show i ≤ i + (s :: pre).length
                simp
              · have h2 := h1.2 p hp
                simp only [List.length_cons]
                omega

/-- Claim C1: run_plan executes the steps of a plan in order (the invocation
log carries nondecreasing step indices); for each step is_skip is called
first, a SKIPPED result is recorded and the next step proceeds; on a plan
whose steps produce no FAILED Result nothing halts, every result is recorded
and every step is invoked; and the first FAILED Result produced anywhere, by
is_skip or by run of some step after a failure-free prefix, halts the whole
plan with exactly that Result while no method of any later step is ever
invoked (every logged invocation carries an index at most that of the
failing step). -/
theorem run_plan_spec :
    (∀ steps, List.Pairwise (fun p q => p.1 ≤ q.1) (run_plan steps).1) ∧
    (∀ steps, (∀ s ∈ steps, step_ok s) →
        (run_plan steps).2.2 = none ∧
        (run_plan steps).2.1 = steps.map (fun s =>
          if s.skip_result.result_type = ResultType.SKIPPED then s.skip_result
          else s.run_result) ∧
        (∀ j, j < steps.length → (j, StepMethod.isSkipCall) ∈ (run_plan steps).1)) ∧
    (∀ pre b post, (∀ s ∈ pre, step_ok s) →
        b.skip_result.result_type = ResultType.FAILED →
        (run_plan (pre ++ b :: post)).2.2 = some b.skip_result ∧
        ∀ p ∈ (run_plan (pre ++ b :: post)).1, p.1 ≤ pre.length) ∧
    (∀ pre b post, (∀ s ∈ pre, step_ok s) →
        b.skip_result.result_type = ResultType.COMPLETED →
        b.run_result.result_type = ResultType.FAILED →
        (run_plan (pre ++ b :: post)).2.2 = some b.run_result ∧
        ∀ p ∈ (run_plan (pre ++ b :: post)).1, p.1 ≤ pre.length) := by
  refine ⟨?_, ?_, ?_, ?_⟩
  · intro steps
    exact (run_plan_from_le steps 0).2
  · intro steps h
    have hx := run_plan_from_no_fail steps 0 h
    exact ⟨hx.1, hx.2.1, fun j hj => by simpa using hx.2.2 j hj⟩
  · intro pre b post hok hb
    have h := (run_plan_from_halt pre 0 b post hok).1 hb
    exact ⟨h.1, fun p hp => by simpa using h.2 p hp⟩
  · intro pre b post hok hb hr
    have h := (run_plan_from_halt pre 0 b post hok).2 hb hr
    exact ⟨h.1, fun p hp => by simpa using h.2 p hp⟩

/-- Witness for C1: the plan of the spec section 8 example, steps A, B and C
with B failing its run call: the plan halts with the FAILED Result of B and
the invocation log holds no method of step C (no index above 1). -/
theorem run_plan_spec_witness :
    (run_plan [planStepA, planStepB, planStepC]).2.2 =
      some ⟨ResultType.FAILED, some "B failed"⟩ ∧
    (run_plan [planStepA, planStepB, planStepC]).1 =
      [(0, StepMethod.isSkipCall), (0, StepMethod.runCall),
       (1, StepMethod.isSkipCall), (1, StepMethod.runCall)] :=
  ⟨(run_plan_spec.2.2.2 [planStepA] planStepB [planStepC] (by decide) rfl rfl).1,
   by decide⟩
